import Mathlib

/-!
Verification of the lutok `wrap.hpp` module (RAII wrappers around the Lua C
API). The repository ships only the header `src/wrap.hpp`, which declares
`lutok::state` (the interpreter handle) and `lutok::stack_cleaner` (the
stack-depth guard) together with their documentation; the implementation file
is not part of the sources. Every behavioral definition below is therefore
modelled from the specification (and from the header's own doc comments),
faithful to their words, and the claims are settled against that model.
-/

namespace Lutok

/-- A value held on the interpreter's shared value stack. Lua distinguishes
nil, booleans, numbers, strings, tables, functions and user data; tables,
functions and user data are identified here by an abstract id. -/
inductive LuaValue where
  | nil : LuaValue
  | boolean (b : Bool) : LuaValue
  | integer (n : Int) : LuaValue
  | str (s : String) : LuaValue
  | table (id : Nat) : LuaValue
  | func (id : Nat) : LuaValue
  | userdata (id : Nat) : LuaValue
deriving DecidableEq, Repr

/-- Modelled from the spec: the interpreter instance reachable through a
`lutok::state` handle. The value stack is a list whose head is the top of the
stack; globals are an association list keyed by name (later bindings shadow
earlier ones). `wrap.hpp` only declares `class state`; its mutable content is
taken from spec section 3 ("Interpreter Handle", "Value stack"). -/
structure LuaState where
  stack : List LuaValue
  globals : List (String × LuaValue)
deriving DecidableEq, Repr

/-- `state::get_top`: the current depth of the value stack. -/
def get_top (s : LuaState) : Nat := s.stack.length

/-- Resolution of a Lua stack index: positive indices count from the bottom
(1 is the bottom slot), negative indices count from the top (-1 is the top
slot); 0 and out-of-range indices resolve to nothing. With the head of the
list as the top of the stack, index -k is the (k-1)-th element of the list
and index j is the (length - j)-th. -/
def resolveIndex (stack : List LuaValue) (i : Int) : Option LuaValue :=
  if 0 < i then
    if i ≤ (stack.length : Int) then stack.get? (stack.length - i.toNat) else none
  else if i < 0 then
    if -i ≤ (stack.length : Int) then stack.get? ((-i).toNat - 1) else none
  else none

/-- Modelled from the spec: `state::is_boolean` (implementation absent from
the sources). A typed predicate at a stack index; an out-of-range or
wrong-type index returns false rather than raising. -/
def is_boolean (s : LuaState) (i : Int) : Bool :=
  match resolveIndex s.stack i with
  | some (LuaValue.boolean _) => true
  | _ => false

/-- Modelled from the spec: `state::is_function`; false on out-of-range or
wrong-type indices, never an error. -/
def is_function (s : LuaState) (i : Int) : Bool :=
  match resolveIndex s.stack i with
  | some (LuaValue.func _) => true
  | _ => false

/-- Modelled from the spec: `state::is_nil`; false on out-of-range or
wrong-type indices, never an error. -/
def is_nil (s : LuaState) (i : Int) : Bool :=
  match resolveIndex s.stack i with
  | some LuaValue.nil => true
  | _ => false

/-- Modelled from the spec: `state::is_number`; false on out-of-range or
wrong-type indices, never an error. -/
def is_number (s : LuaState) (i : Int) : Bool :=
  match resolveIndex s.stack i with
  | some (LuaValue.integer _) => true
  | _ => false

/-- Modelled from the spec: `state::is_string`; false on out-of-range or
wrong-type indices, never an error. -/
def is_string (s : LuaState) (i : Int) : Bool :=
  match resolveIndex s.stack i with
  | some (LuaValue.str _) => true
  | _ => false

/-- Modelled from the spec: `state::is_table`; false on out-of-range or
wrong-type indices, never an error. -/
def is_table (s : LuaState) (i : Int) : Bool :=
  match resolveIndex s.stack i with
  | some (LuaValue.table _) => true
  | _ => false

/-- Modelled from the spec: `state::is_userdata`; false on out-of-range or
wrong-type indices, never an error. -/
def is_userdata (s : LuaState) (i : Int) : Bool :=
  match resolveIndex s.stack i with
  | some (LuaValue.userdata _) => true
  | _ => false

/-- Modelled from the spec: `state::push_nil` pushes nil onto the top of the
stack. -/
def push_nil (s : LuaState) : LuaState :=
  { s with stack := LuaValue.nil :: s.stack }

/-- Modelled from the spec: `state::push_boolean` pushes a boolean onto the
top of the stack. -/
def push_boolean (b : Bool) (s : LuaState) : LuaState :=
  { s with stack := LuaValue.boolean b :: s.stack }

/-- Modelled from the spec: `state::push_integer` pushes a C `int` onto the
top of the stack; the underlying `lua_pushinteger` widens the `int` argument
to the runtime's integer type (`long`-sized), and that widening is exact on
the whole `int` range. -/
def push_integer (v : Int) (s : LuaState) : LuaState :=
  { s with stack := LuaValue.integer v :: s.stack }

/-- Modelled from the spec: `state::push_string` pushes a string onto the top
of the stack. -/
def push_string (str : String) (s : LuaState) : LuaState :=
  { s with stack := LuaValue.str str :: s.stack }

/-- Modelled from the spec: `state::pop` removes the given number of entries
from the top of the stack (never more than the stack holds). -/
def pop (n : Nat) (s : LuaState) : LuaState :=
  { s with stack := s.stack.drop n }

/-- Modelled from the spec: `state::to_integer` (declared in `wrap.hpp` as
returning `long`) reads the value at the given stack index as an integer;
a non-number yields 0, mirroring `lua_tointeger`'s permissive conversion.
String-to-number coercion is not modelled. -/
def to_integer (s : LuaState) (i : Int) : Int :=
  match resolveIndex s.stack i with
  | some (LuaValue.integer n) => n
  | _ => 0

/-- The bounds of the C `int` type (32-bit two's complement), the argument
type of `state::push_integer`. -/
def intMin : Int := -(2 ^ 31)

/-- Upper bound of the C `int` type. -/
def intMax : Int := 2 ^ 31 - 1

/-- Lower bound of the C `long` type (64-bit two's complement), the return
type of `state::to_integer`. -/
def longMin : Int := -(2 ^ 63)

/-- Upper bound of the C `long` type. -/
def longMax : Int := 2 ^ 63 - 1

/-- Modelled from the spec: `state::get_global` pushes the value of the named
global onto the stack (nil when the global is unset). -/
def get_global (s : LuaState) (name : String) : LuaState :=
  { s with
    stack := (match s.globals.find? (fun p => p.fst = name) with
              | some p => p.snd
              | none => LuaValue.nil) :: s.stack }

/-- Modelled from the spec: `state::set_global` pops the top of the stack
into the named global. (Calling it on an empty stack is caller misuse that
the wrapped runtime does not define; the model leaves the state unchanged in
that case.) -/
def set_global (s : LuaState) (name : String) : LuaState :=
  match s.stack with
  | [] => s
  | v :: rest => { stack := rest, globals := (name, v) :: s.globals }

/-- Modelled from the spec and the `wrap.hpp` doc comment (lines 131-159):
the `lutok::stack_cleaner` guard. At creation it records the current depth of
the stack of the guarded `state`; `forget` disables its cleanup; destruction,
unless forgotten, pops the stack back down to the recorded depth. -/
structure StackCleaner where
  original_depth : Nat
  forgotten : Bool
deriving DecidableEq, Repr

/-- `stack_cleaner::stack_cleaner(state&)`: records the current stack depth
of the guarded state. -/
def StackCleaner.mk' (s : LuaState) : StackCleaner :=
  { original_depth := get_top s, forgotten := false }

/-- `stack_cleaner::forget`: permanently disables the cleanup performed at
destruction. -/
def StackCleaner.forget (c : StackCleaner) : StackCleaner :=
  { c with forgotten := true }

/-- Modelled from the spec: `stack_cleaner::~stack_cleaner`. Unless
forgotten, pops `max(0, current_depth - original_depth)` entries, so the
stack returns to the recorded depth; when other code already shrank the
stack below the recorded depth nothing further is popped. -/
def StackCleaner.destroy (c : StackCleaner) (s : LuaState) : LuaState :=
  if c.forgotten then s
  else if c.original_depth < get_top s then pop (get_top s - c.original_depth) s
  else s

/-- A handle operation performed on the value stack during a guard's
lifetime: the push operations of `state` plus `pop`. -/
inductive Op where
  | opPushNil : Op
  | opPushBoolean (b : Bool) : Op
  | opPushInteger (n : Int) : Op
  | opPushString (s : String) : Op
  | opPop (n : Nat) : Op
deriving DecidableEq, Repr

/-- Run one handle operation on the state. -/
def runOp (o : Op) (s : LuaState) : LuaState :=
  match o with
  | Op.opPushNil => push_nil s
  | Op.opPushBoolean b => push_boolean b s
  | Op.opPushInteger n => push_integer n s
  | Op.opPushString str => push_string str s
  | Op.opPop n => pop n s

/-- Run a sequence of handle operations, first element first. -/
def runOps (ops : List Op) (s : LuaState) : LuaState :=
  match ops with
  | [] => s
  | o :: rest => runOps rest (runOp o s)

/-- Push a list of values (first element pushed first). -/
def pushAll (vs : List LuaValue) (s : LuaState) : LuaState :=
  match vs with
  | [] => s
  | v :: rest => pushAll rest { s with stack := v :: s.stack }

/-- The typed errors the wrapper raises, per the spec's error taxonomy:
a Compile/Syntax error or a Runtime error, each carrying the underlying
runtime's diagnostic message verbatim. -/
inductive LutokError where
  | compileError (msg : String) : LutokError
  | runtimeError (msg : String) : LutokError
deriving DecidableEq, Repr

/-- The diagnostic message carried by a typed error. -/
def LutokError.message : LutokError → String
  | LutokError.compileError msg => msg
  | LutokError.runtimeError msg => msg

/-- The outcome the underlying runtime reports when asked to compile a chunk
of source: either a compiled callable (identified by its function id) or a
compiler diagnostic message. The runtime itself is a black box; a claim
about loading quantifies over all such outcomes. -/
def CompileOutcome : Type := String → Except String Nat

/-- Modelled from the spec: `state::load_string` (implementation absent from
the sources). Compiles the given source string through the underlying
runtime; on success the compiled callable is left on top of the stack, and
on failure a Compile/Syntax error carrying the runtime's diagnostic message
verbatim is raised (the stack is not grown). -/
def load_string (compile : CompileOutcome) (code : String) (s : LuaState) :
    Except LutokError LuaState :=
  match compile code with
  | Except.ok fid => Except.ok { s with stack := LuaValue.func fid :: s.stack }
  | Except.error msg => Except.error (LutokError.compileError msg)

/-- Modelled from the spec: `state::load_file` (implementation absent from
the sources). Same contract as `load_string` with the source read from the
named file; the file's compile outcome is the runtime's. -/
def load_file (compile : CompileOutcome) (filename : String) (s : LuaState) :
    Except LutokError LuaState :=
  match compile filename with
  | Except.ok fid => Except.ok { s with stack := LuaValue.func fid :: s.stack }
  | Except.error msg => Except.error (LutokError.compileError msg)

/-- Modelled from the spec: the string representation the interpreter gives
a value (the form `lua_tostring`/`tostring` produces), used for the message
of a Runtime error. -/
def valueToString : LuaValue → String
  | LuaValue.nil => "nil"
  | LuaValue.boolean true => "true"
  | LuaValue.boolean false => "false"
  | LuaValue.integer n => toString n
  | LuaValue.str s => s
  | LuaValue.table id => "table: " ++ toString id
  | LuaValue.func id => "function: " ++ toString id
  | LuaValue.userdata id => "userdata: " ++ toString id

/-- The outcome of running a callable through the underlying runtime: either
the list of produced results (head = last result, i.e. stack order) or the
raised script-level error value. -/
def CallOutcome : Type := Except LuaValue (List LuaValue)

/-- Lua adjusts the results of a call to exactly the requested count,
discarding extras and padding with nil. -/
def adjustResults (nresults : Nat) (rs : List LuaValue) : List LuaValue :=
  if nresults ≤ rs.length then rs.take nresults
  else rs ++ List.replicate (nresults - rs.length) LuaValue.nil

/-- Modelled from the spec: `state::pcall` (implementation absent from the
sources). Invokes the callable found below its `nargs` arguments on the
stack, requesting `nresults` results. The callable and the arguments are
consumed. On success the adjusted results are left on top; on script error
the wrapper raises a Runtime error whose message is the string
representation of the interpreter's error value, and the stack is left with
the error object on top, as the runtime mandates. -/
def pcall (outcome : CallOutcome) (nargs nresults : Nat) (s : LuaState) :
    Option LutokError × LuaState :=
  match outcome with
  | Except.ok results =>
      (none, { s with stack := adjustResults nresults results ++ s.stack.drop (nargs + 1) })
  | Except.error e =>
      (some (LutokError.runtimeError (valueToString e)),
       { s with stack := e :: s.stack.drop (nargs + 1) })

/-- Modelled from the spec: the lifecycle bookkeeping of a `lutok::state`
handle. `owned` records whether the handle allocated a fresh interpreter
instance (the default constructor) or wrapped an externally supplied
`lua_State*` (the explicit constructor); `released` records that the handle
has already released the instance via `close`. -/
structure Handle where
  owned : Bool
  released : Bool
deriving DecidableEq, Repr

/-- `state::state()`: allocates a fresh interpreter instance that the handle
owns exclusively. -/
def Handle.mkFresh : Handle := { owned := true, released := false }

/-- `state::state(lua_State*)`: wraps an externally supplied instance;
ownership is borrowed, not exclusive. -/
def Handle.mkWrapped : Handle := { owned := false, released := false }

/-- Modelled from the spec: `state::close` releases an owned instance early.
Returns the updated handle and whether the underlying instance was released
by this call; a second call releases nothing. -/
def Handle.close (h : Handle) : Handle × Bool :=
  if h.released then (h, false)
  else ({ h with released := true }, true)

/-- Modelled from the spec: whether `state::~state` releases the underlying
instance. The destructor releases only an owned instance that `close` has
not already released; a borrowed instance is never destroyed. -/
def Handle.destructorReleases (h : Handle) : Bool :=
  h.owned && !h.released

/-- A concrete compile outcome used to exercise the loading theorems on
concrete inputs: the chunk "return 1" compiles to the callable with id 7 and
everything else fails with a fixed diagnostic. -/
def compile0 : CompileOutcome := fun code =>
  if code = "return 1" then Except.ok 7
  else Except.error "unexpected symbol near eof"

/-- Pushing a list of values appends them (reversed) in front of the stack
and leaves the globals alone. -/
theorem pushAll_stack (vs : List LuaValue) (s : LuaState) :
    (pushAll vs s).stack = vs.reverse ++ s.stack := by
  induction vs generalizing s with
  | nil => rfl
  | cons v rest ih => simp [pushAll, ih]

/-- `pushAll` does not touch the globals. -/
theorem pushAll_globals (vs : List LuaValue) (s : LuaState) :
    (pushAll vs s).globals = s.globals := by
  induction vs generalizing s with
  | nil => rfl
  | cons v rest ih => simp [pushAll, ih]

/-- Two interpreter states with the same stack and the same globals are
equal. -/
theorem luaStateExt (a b : LuaState) (h1 : a.stack = b.stack)
    (h2 : a.globals = b.globals) : a = b := by
  cases a
  cases b
  simp_all

/-- The depth after a (non-forgotten) guard's destruction is the minimum of
the current depth and the recorded depth. -/
theorem destroy_get_top (c : StackCleaner) (s : LuaState)
    (hf : c.forgotten = false) :
    get_top (StackCleaner.destroy c s) = min (get_top s) c.original_depth := by
  unfold StackCleaner.destroy
  simp only [hf, Bool.false_eq_true, if_false]
  by_cases h : c.original_depth < get_top s
  · rw [if_pos h]
    simp only [pop, get_top, List.length_drop] at h ⊢
    omega
  · rw [if_neg h]
    omega

/-- When the current depth does not exceed the recorded depth, destruction
leaves the state untouched. -/
theorem destroy_of_le (c : StackCleaner) (s : LuaState)
    (h : get_top s ≤ c.original_depth) :
    StackCleaner.destroy c s = s := by
  unfold StackCleaner.destroy
  split_ifs with h1 h2
  · rfl
  · exact absurd h2 (by omega)
  · rfl

/-- Destroying a guard recorded at state `s` after the stack has only grown
by `extra` entries (globals unchanged) restores exactly `s`. -/
theorem destroy_to_base (s t : LuaState) (extra : List LuaValue)
    (hst : t.stack = extra ++ s.stack) (hgl : t.globals = s.globals) :
    StackCleaner.destroy (StackCleaner.mk' s) t = s := by
  have hk : get_top t - (StackCleaner.mk' s).original_depth = extra.length := by
    simp [get_top, StackCleaner.mk', hst]
  cases extra with
  | nil =>
      have hle : get_top t ≤ (StackCleaner.mk' s).original_depth := by
        simp [get_top, StackCleaner.mk', hst]
      rw [destroy_of_le _ _ hle]
      exact luaStateExt _ _ (by simp [hst]) hgl
  | cons v rest =>
      have hlt : (StackCleaner.mk' s).original_depth < get_top t := by
        simp only [get_top, StackCleaner.mk', hst, List.cons_append,
          List.length_cons, List.length_append]
        omega
      unfold StackCleaner.destroy
      have hforg : (StackCleaner.mk' s).forgotten = false := rfl
      simp only [hforg, Bool.false_eq_true, if_false, if_pos hlt]
      refine luaStateExt _ _ ?_ ?_
      · simp only [pop, hk, hst]
        exact List.drop_left _ _
      · simpa [pop] using hgl

/-- C1: for every state and every sequence of handle operations performed
during the lifetime of a stack_cleaner that has not been forgotten,
destruction pops `max(0, current_depth - depth₀)` entries, leaving the
stack depth exactly at the recorded depth `depth₀` whenever the current
depth is at least `depth₀`, and leaving the state untouched (popping
nothing further) when other code already shrank the stack below `depth₀`. -/
theorem stack_cleaner_restores_depth (s0 : LuaState) (ops : List Op)
    (c : StackCleaner) (s1 s2 : LuaState)
    (hc : c = StackCleaner.mk' s0) (h1 : s1 = runOps ops s0)
    (h2 : s2 = StackCleaner.destroy c s1) :
    get_top s2 = min (get_top s1) c.original_depth
    ∧ (get_top s1 : Int) - (get_top s2 : Int)
        = max 0 ((get_top s1 : Int) - (c.original_depth : Int))
    ∧ (c.original_depth ≤ get_top s1 → get_top s2 = c.original_depth)
    ∧ (get_top s1 < c.original_depth → s2 = s1) := by
  subst hc h1 h2
  have hf : (StackCleaner.mk' s0).forgotten = false := rfl
  have key := destroy_get_top (StackCleaner.mk' s0) (runOps ops s0) hf
  refine ⟨key, ?_, ?_, ?_⟩
  · omega
  · intro h
    omega
  · intro h
    exact destroy_of_le _ _ (by omega)

/-- Witness for C1 at a concrete run: starting from the empty stack, pushing
two entries and destroying the guard brings the depth back to 0. -/
theorem stack_cleaner_restores_depth_witness :
    get_top (StackCleaner.destroy (StackCleaner.mk' ⟨[], []⟩)
      (runOps [Op.opPushInteger 1, Op.opPushNil] ⟨[], []⟩)) = 0 := by
  have h := stack_cleaner_restores_depth ⟨[], []⟩
    [Op.opPushInteger 1, Op.opPushNil] _ _ _ rfl rfl rfl
  exact h.2.2.1 (by decide)

/-- C2: nested guards. Constructing G2 after G1 on the same state, with
entries pushed in between, gives `G1.depth₀ ≤ G2.depth₀`; destroying G2
restores exactly the state at G2's construction (its cleanup never pops
entries that existed before G2 was created), and after pushing more entries
and destroying G1 the stack is back at the depth recorded by G1. -/
theorem nested_guards (s0 : LuaState) (vs1 vs2 vs3 : List LuaValue)
    (g1 g2 : StackCleaner) (s1 s2 s3 s4 s5 : LuaState)
    (hg1 : g1 = StackCleaner.mk' s0) (hs1 : s1 = pushAll vs1 s0)
    (hg2 : g2 = StackCleaner.mk' s1) (hs2 : s2 = pushAll vs2 s1)
    (hs3 : s3 = StackCleaner.destroy g2 s2) (hs4 : s4 = pushAll vs3 s3)
    (hs5 : s5 = StackCleaner.destroy g1 s4) :
    g1.original_depth ≤ g2.original_depth
    ∧ s3 = s1
    ∧ get_top s3 = g2.original_depth
    ∧ s5 = s0
    ∧ get_top s5 = g1.original_depth := by
  subst hg1 hs1 hg2 hs2 hs3 hs4 hs5
  have h3 : StackCleaner.destroy (StackCleaner.mk' (pushAll vs1 s0))
      (pushAll vs2 (pushAll vs1 s0)) = pushAll vs1 s0 :=
    destroy_to_base _ _ vs2.reverse (pushAll_stack _ _) (pushAll_globals _ _)
  have h5 : StackCleaner.destroy (StackCleaner.mk' s0)
      (pushAll vs3 (pushAll vs1 s0)) = s0 :=
    destroy_to_base _ _ (vs3.reverse ++ vs1.reverse)
      (by rw [pushAll_stack, pushAll_stack, List.append_assoc])
      (by rw [pushAll_globals, pushAll_globals])
  refine ⟨?_, h3, ?_, ?_, ?_⟩
  · simp only [StackCleaner.mk', get_top, pushAll_stack, List.length_append,
      List.length_reverse]
    omega
  · rw [h3]
    rfl
  · rw [h3, h5]
  · rw [h3, h5]
    rfl

/-- Witness for C2 at a concrete run: one entry pushed between the guards,
two inside G2, one more after destroying G2; the depths come back to the
recorded ones and the intermediate states are restored exactly. -/
theorem nested_guards_witness :
    (StackCleaner.mk' (⟨[], []⟩ : LuaState)).original_depth
        ≤ (StackCleaner.mk' (pushAll [LuaValue.nil] ⟨[], []⟩)).original_depth
    ∧ StackCleaner.destroy (StackCleaner.mk' (pushAll [LuaValue.nil] ⟨[], []⟩))
        (pushAll [LuaValue.integer 1, LuaValue.boolean true]
          (pushAll [LuaValue.nil] ⟨[], []⟩))
        = pushAll [LuaValue.nil] ⟨[], []⟩ := by
  have h := nested_guards ⟨[], []⟩ [LuaValue.nil]
    [LuaValue.integer 1, LuaValue.boolean true] [LuaValue.str "z"]
    _ _ _ _ _ _ _ rfl rfl rfl rfl rfl rfl rfl
  exact ⟨h.1, h.2.1⟩

/-- C3: `forget` permanently disables cleanup and is idempotent: forgetting
twice equals forgetting once, and destroying a forgotten guard leaves the
whole state (in particular the stack depth and every pushed entry)
unchanged. -/
theorem forget_disables_cleanup (c : StackCleaner) (s : LuaState) :
    c.forget.forget = c.forget
    ∧ StackCleaner.destroy c.forget s = s
    ∧ get_top (StackCleaner.destroy c.forget s) = get_top s := by
  refine ⟨rfl, ?_, ?_⟩ <;> simp [StackCleaner.forget, StackCleaner.destroy]

/-- C4: `load_string` and `load_file` either succeed and leave exactly the
compiled callable on top of the stack (the rest of the stack unchanged), or,
when the runtime reports a compilation failure with its (non-empty)
diagnostic, raise a Compile/Syntax error whose message is that diagnostic
preserved verbatim and hence non-empty. -/
theorem load_preserves_diagnostics (compile : CompileOutcome) (code : String)
    (s : LuaState) :
    (∀ fid, compile code = Except.ok fid →
      load_string compile code s
          = Except.ok { s with stack := LuaValue.func fid :: s.stack }
      ∧ load_file compile code s
          = Except.ok { s with stack := LuaValue.func fid :: s.stack })
    ∧ (∀ msg, compile code = Except.error msg → msg ≠ "" →
      load_string compile code s = Except.error (LutokError.compileError msg)
      ∧ load_file compile code s = Except.error (LutokError.compileError msg)
      ∧ (LutokError.compileError msg).message = msg
      ∧ (LutokError.compileError msg).message ≠ "") := by
  constructor
  · intro fid h
    exact ⟨by simp [load_string, h], by simp [load_file, h]⟩
  · intro msg h hne
    exact ⟨by simp [load_string, h], by simp [load_file, h], rfl, hne⟩

/-- Witness for C4: under the concrete compile outcome `compile0`, loading
"(" fails with the verbatim diagnostic and loading "return 1" leaves the
compiled callable on top of the (previously empty) stack. -/
theorem load_preserves_diagnostics_witness :
    load_string compile0 "(" ⟨[], []⟩
        = Except.error (LutokError.compileError "unexpected symbol near eof")
    ∧ load_string compile0 "return 1" ⟨[], []⟩
        = Except.ok ⟨[LuaValue.func 7], []⟩ := by
  have h1 := load_preserves_diagnostics compile0 "(" ⟨[], []⟩
  have h2 := load_preserves_diagnostics compile0 "return 1" ⟨[], []⟩
  refine ⟨(h1.2 "unexpected symbol near eof" (by simp [compile0]) (by decide)).1, ?_⟩
  exact (h2.1 7 (by simp [compile0])).1

/-- C5: when the callee of a protected call raises a script-level error `e`,
`pcall` raises a Runtime error whose message is the string representation of
`e` (no message is dropped), and the stack is left with the error object on
top of the stack entries below the consumed callable and arguments. -/
theorem pcall_runtime_error (e : LuaValue) (nargs nresults : Nat)
    (s : LuaState) :
    (pcall (Except.error e) nargs nresults s).1
        = some (LutokError.runtimeError (valueToString e))
    ∧ Option.map LutokError.message (pcall (Except.error e) nargs nresults s).1
        = some (valueToString e)
    ∧ (pcall (Except.error e) nargs nresults s).2.stack
        = e :: s.stack.drop (nargs + 1) := by
  refine ⟨rfl, rfl, rfl⟩

/-- C6: every type predicate is a total boolean function of the state and
the index: it answers true exactly when the index resolves to a value of the
corresponding type, and an out-of-range index (0, above the depth, or below
minus the depth) resolves to nothing, so every predicate answers false there
instead of failing. -/
theorem type_predicates_never_fail (s : LuaState) (i : Int) :
    (is_boolean s i = true
        ↔ ∃ b, resolveIndex s.stack i = some (LuaValue.boolean b))
    ∧ (is_function s i = true
        ↔ ∃ n, resolveIndex s.stack i = some (LuaValue.func n))
    ∧ (is_nil s i = true ↔ resolveIndex s.stack i = some LuaValue.nil)
    ∧ (is_number s i = true
        ↔ ∃ n, resolveIndex s.stack i = some (LuaValue.integer n))
    ∧ (is_string s i = true
        ↔ ∃ t, resolveIndex s.stack i = some (LuaValue.str t))
    ∧ (is_table s i = true
        ↔ ∃ n, resolveIndex s.stack i = some (LuaValue.table n))
    ∧ (is_userdata s i = true
        ↔ ∃ n, resolveIndex s.stack i = some (LuaValue.userdata n))
    ∧ ((i = 0 ∨ (get_top s : Int) < i ∨ i < -(get_top s : Int)) →
        resolveIndex s.stack i = none
        ∧ is_boolean s i = false ∧ is_function s i = false
        ∧ is_nil s i = false ∧ is_number s i = false
        ∧ is_string s i = false ∧ is_table s i = false
        ∧ is_userdata s i = false) := by
  have hres : ∀ h : (i = 0 ∨ (get_top s : Int) < i ∨ i < -(get_top s : Int)),
      resolveIndex s.stack i = none := by
    intro h
    unfold resolveIndex
    simp only [get_top] at h
    split_ifs with h1 h2 h3 h4
    · exact absurd h2 (by omega)
    · rfl
    · exact absurd h4 (by omega)
    · rfl
    · rfl
  constructor
  · unfold is_boolean
    rcases hv : resolveIndex s.stack i with _ | v
    · simp
    · cases v <;> simp
  constructor
  · unfold is_function
    rcases hv : resolveIndex s.stack i with _ | v
    · simp
    · cases v <;> simp
  constructor
  · unfold is_nil
    rcases hv : resolveIndex s.stack i with _ | v
    · simp
    · cases v <;> simp
  constructor
  · unfold is_number
    rcases hv : resolveIndex s.stack i with _ | v
    · simp
    · cases v <;> simp
  constructor
  · unfold is_string
    rcases hv : resolveIndex s.stack i with _ | v
    · simp
    · cases v <;> simp
  constructor
  · unfold is_table
    rcases hv : resolveIndex s.stack i with _ | v
    · simp
    · cases v <;> simp
  constructor
  · unfold is_userdata
    rcases hv : resolveIndex s.stack i with _ | v
    · simp
    · cases v <;> simp
  · intro h
    have hn := hres h
    refine ⟨hn, ?_, ?_, ?_, ?_, ?_, ?_, ?_⟩ <;>
      simp [is_boolean, is_function, is_nil, is_number, is_string,
        is_table, is_userdata, hn]

/-- Witness for C6: on the empty stack, the out-of-range index 5 resolves to
nothing and the predicates answer false. -/
theorem type_predicates_never_fail_witness :
    resolveIndex ([] : List LuaValue) 5 = none
    ∧ is_boolean ⟨[], []⟩ 5 = false
    ∧ is_nil ⟨[], []⟩ 5 = false := by
  have h := (type_predicates_never_fail ⟨[], []⟩ 5).2.2.2.2.2.2.2
    (Or.inr (Or.inl (by decide)))
  exact ⟨h.1, h.2.1, h.2.2.2.1⟩

/-- C7 counterexample: the claimed sequence (push integer 42, `set_global
"x"`, `get_global "x"`) does not leave the overall stack depth unchanged:
starting from the empty stack the final depth is 1, not 0, because the push
and the `get_global` each add an entry while `set_global` removes only
one. -/
theorem global_roundtrip_counterexample :
    get_top (get_global (set_global (push_integer 42 ⟨[], []⟩) "x") "x")
      ≠ get_top (⟨[], []⟩ : LuaState) := by
  decide

/-- C7 (amended): pushing integer 42, calling `set_global "x"`, then
`get_global "x"` leaves on top of the stack a value whose integer conversion
equals 42, and the stack depth is exactly one more than before the push:
`set_global` pops the pushed entry and `get_global` pushes the global back,
so the set/get round trip itself is depth-neutral. -/
theorem global_roundtrip (s : LuaState) :
    to_integer (get_global (set_global (push_integer 42 s) "x") "x") (-1) = 42
    ∧ get_top (get_global (set_global (push_integer 42 s) "x") "x")
        = get_top s + 1
    ∧ get_top (set_global (push_integer 42 s) "x") = get_top s := by
  refine ⟨?_, ?_, ?_⟩ <;>
    simp [push_integer, set_global, get_global, to_integer, resolveIndex,
      get_top, List.find?]

/-- C8: lifecycle of the handle. A fresh handle owns its instance; `close`
releases it and the destructor then no longer releases it (no double
release); a second `close` releases nothing (idempotent with destruction);
without `close` the destructor releases an owned instance; a handle wrapped
around an externally supplied instance is borrowed, so its destructor never
destroys the instance; and after any `close` the destructor never releases
again. -/
theorem handle_lifecycle :
    Handle.mkFresh.owned = true
    ∧ (Handle.mkFresh.close).2 = true
    ∧ (Handle.mkFresh.close).1.destructorReleases = false
    ∧ ((Handle.mkFresh.close).1.close).2 = false
    ∧ Handle.mkFresh.destructorReleases = true
    ∧ Handle.mkWrapped.destructorReleases = false
    ∧ (∀ h : Handle, (h.close).1.destructorReleases = false) := by
  refine ⟨rfl, rfl, rfl, rfl, rfl, rfl, ?_⟩
  intro h
  unfold Handle.close Handle.destructorReleases
  by_cases hr : h.released
  · simp [hr]
  · simp [hr]

/-- C9: for a syntactically valid script (the runtime compiles it to a
callable), `load_string` succeeds and grows the stack by one, and a
subsequent successful protected call with 0 arguments and 0 requested
results reports no error and leaves the stack exactly as it was before the
load: the loaded callable is consumed and no results are kept. -/
theorem valid_load_then_pcall (compile : CompileOutcome) (code : String)
    (s : LuaState) (fid : Nat) (h : compile code = Except.ok fid)
    (results : List LuaValue) :
    ∃ s1, load_string compile code s = Except.ok s1
      ∧ get_top s1 = get_top s + 1
      ∧ (pcall (Except.ok results) 0 0 s1).1 = none
      ∧ (pcall (Except.ok results) 0 0 s1).2.stack = s.stack
      ∧ get_top (pcall (Except.ok results) 0 0 s1).2 = get_top s := by
  refine ⟨{ s with stack := LuaValue.func fid :: s.stack }, ?_, ?_, ?_, ?_, ?_⟩
  · simp [load_string, h]
  · simp [get_top]
  · rfl
  · simp [pcall, adjustResults]
  · simp [pcall, adjustResults, get_top]

/-- Witness for C9: with the concrete compile outcome `compile0`, loading
"return 1" on the empty stack and then calling it protected with 0 args and
0 results succeeds and brings the depth back to 0. -/
theorem valid_load_then_pcall_witness :
    ∃ s1, load_string compile0 "return 1" ⟨[], []⟩ = Except.ok s1
      ∧ get_top s1 = 1
      ∧ (pcall (Except.ok []) 0 0 s1).1 = none
      ∧ (pcall (Except.ok []) 0 0 s1).2.stack = []
      ∧ get_top (pcall (Except.ok []) 0 0 s1).2 = 0 := by
  have h := valid_load_then_pcall compile0 "return 1" ⟨[], []⟩ 7
    (by simp [compile0]) []
  simpa [get_top] using h

/-- C10: `push_integer` takes a C `int` and `to_integer` returns a `long`;
for every value in the `int` range, pushing it and reading the top of the
stack back yields exactly the same integer, and that integer lies inside the
`long` range, so the int-to-long widening loses no pushed value. -/
theorem push_integer_to_integer_roundtrip (v : Int) (s : LuaState)
    (h1 : intMin ≤ v) (h2 : v ≤ intMax) :
    to_integer (push_integer v s) (-1) = v
    ∧ longMin ≤ to_integer (push_integer v s) (-1)
    ∧ to_integer (push_integer v s) (-1) ≤ longMax := by
  have hv : to_integer (push_integer v s) (-1) = v := by
    unfold to_integer push_integer resolveIndex
    norm_num
  refine ⟨hv, ?_, ?_⟩ <;> rw [hv] <;>
    simp only [intMin, intMax, longMin, longMax] at * <;> omega

/-- Witness for C10: pushing 42 (inside the int range) and reading it back
yields exactly 42. -/
theorem push_integer_to_integer_roundtrip_witness :
    intMin ≤ 42 ∧ (42 : Int) ≤ intMax
    ∧ to_integer (push_integer 42 ⟨[], []⟩) (-1) = 42 :=
  ⟨by decide, by decide,
    (push_integer_to_integer_roundtrip 42 ⟨[], []⟩ (by decide) (by decide)).1⟩

end Lutok
